import Mathlib

/-!
The bidder client `ad_bidder` of the ad request auction system.

A shallow embedding of `main.go`: the process-wide variables become an explicit
`Globals` record threaded through the functions, the library calls the program
makes (config loading, URL parsing, the HTTP client, the JSON decoder, the random
source) become fields of an environment record, `log.Fatal` and a run-time panic
become explicit exits, and the observable actions are collected in an event list.
Machine integers are `Int` with explicit 64-bit wrap-around.
-/

namespace AdBidder

/-! ## Machine integers and durations -/

/-- Two's-complement reduction of an integer to the range of Go's `int64`. -/
def wrapInt64 (x : Int) : Int :=
  (x + 9223372036854775808) % 18446744073709551616 - 9223372036854775808

/-- Constant `time.Millisecond`, in nanoseconds. -/
def Millisecond : Int := 1000000

/-- Right-hand side of `Delay = (time.Duration(*delay) * time.Millisecond)`: the
`uint` flag value is converted to `int64` and multiplied in `int64`. -/
def durationOfDelayFlag (delay : Nat) : Int :=
  wrapInt64 (wrapInt64 (delay : Int) * Millisecond)

/-! ## Data model -/

/-- Dynamic value stored in a `map[string]interface{}` literal of the source. -/
inductive Value where
  | str (s : String)
  | int (n : Int)
  deriving DecidableEq, Repr

/-- Package-level variables `Port`, `Delay` (nanoseconds) and `BidderID`. -/
structure Globals where
  Port : Int
  Delay : Int
  BidderID : String
  deriving DecidableEq, Repr

/-- Struct `Config` of the source. -/
structure Config where
  AunctioneerHost : String
  AunctioneerPath : String
  deriving DecidableEq, Repr

/-- Modelled from the spec: `misc.Meta`, the metadata of a response (`meta.status`,
`meta.message`); the package `misc` is not part of the sources. -/
structure Meta where
  Status : Int
  Message : String
  deriving DecidableEq, Repr

/-- Modelled from the spec: `misc.Bidder`, of which the program reads the `id` only;
the package `misc` is not part of the sources. -/
structure Bidder where
  ID : String
  deriving DecidableEq, Repr

/-- Modelled from the spec: `misc.Response`, the envelope `{data, meta}`; the package
`misc` is not part of the sources. -/
structure Response where
  Data : List (String × Value)
  Meta : Meta
  deriving DecidableEq, Repr

/-- Constant `http.StatusOK`. -/
def StatusOK : Int := 200

/-- Incoming request seen by a handler through `*gin.Context`. -/
structure Context where
  method : String
  path : String
  body : String
  deriving DecidableEq, Repr

/-- One call `c.JSON(code, obj)`: the status code and the object rendered as body. -/
structure JSONWrite where
  code : Int
  obj : Response
  deriving DecidableEq, Repr

/-- Outgoing `*http.Request`, with the fields the program sets. The body is the JSON
object written by the encoder, as its key/value entries. -/
structure Request where
  Method : String
  URL : String
  Host : String
  Header : List (String × String)
  Body : List (String × Value)
  deriving DecidableEq, Repr

/-- Incoming `*http.Response`: status code and raw body. -/
structure HTTPResponse where
  StatusCode : Int
  Body : String
  deriving DecidableEq, Repr

/-- Local variable `res` of `registerWithAuctioneer`: `Data` is a pointer, so it may
be nil. -/
structure RegistrationReply where
  Data : Option Bidder
  Meta : Meta
  deriving DecidableEq, Repr

/-- Library behaviour the program depends on. Errors are carried as their message.
* `ReadInConfig`: result of `viper.ReadInConfig()` (nil or an error);
* `Unmarshal`: result of `viper.Unmarshal(&config)`;
* `urlHost`: URL parsing inside `http.NewRequest`, giving the host of the URL;
* `Do`: `http.DefaultClient.Do`;
* `Decode`: `json.NewDecoder(resp.Body).Decode(&res)` on a raw body;
* `Intn`: `rand.Intn`. -/
structure Env where
  ReadInConfig : Option String
  Unmarshal : Except String Config
  urlHost : String → Except String String
  Do : Request → Except String HTTPResponse
  Decode : String → Except String RegistrationReply
  Intn : Int → Int

/-! ## The bid handler -/

/-- Function `bidHandler`: the list of `c.JSON` calls it makes. The wait on
`time.After(Delay)` and the reseeding have no effect on the value written. -/
def bidHandler (env : Env) (g : Globals) (_c : Context) : List JSONWrite :=
  let min : Int := 100
  let max : Int := 3000
  let data : List (String × Value) :=
    [("bidder_id", Value.str g.BidderID),
     ("amount", Value.int (wrapInt64 (env.Intn (wrapInt64 (wrapInt64 (max - min) + 1)) + min)))]
  [{ code := StatusOK, obj := { Data := data, Meta := { Status := StatusOK, Message := "" } } }]

/-- Lookup of a key in a JSON object given by its entries. -/
def field (k : String) : List (String × Value) → Option Value
  | [] => none
  | (k', v) :: rest => if k' = k then some v else field k rest

/-! ## Registration -/

/-- How a call of a function ends: it returns (nil or an error) or it panics. -/
inductive Outcome where
  | returned (err : Option String)
  | panicked (msg : String)
  deriving DecidableEq, Repr

/-- Result of running `registerWithAuctioneer`: how it ended, the globals afterwards,
and the requests handed to the HTTP client. -/
structure RegisterRun where
  outcome : Outcome
  globals : Globals
  sent : List Request
  deriving DecidableEq, Repr

/-- Function `http.NewRequest`: fails when the URL does not parse; otherwise the
request has the given method, URL and body, the host of the URL and no header. -/
def NewRequest (env : Env) (method url : String) (body : List (String × Value)) :
    Except String Request :=
  match env.urlHost url with
  | .error err => .error err
  | .ok h => .ok { Method := method, URL := url, Host := h, Header := [], Body := body }

/-- Method `Header.Set`: replaces the values stored under the key. -/
def headerSet (h : List (String × String)) (k v : String) : List (String × String) :=
  (k, v) :: h.filter (fun p => p.1 ≠ k)

/-- Lines `req.Host = ...` and `req.Header.Set(...)` of `registerWithAuctioneer`. -/
def prepareRequest (g : Globals) (req : Request) : Request :=
  let req1 := { req with Host := "localhost" ++ ":" ++ toString g.Port }
  { req1 with Header := headerSet req1.Header "Content-Type" "application/json" }

/-- Function `registerWithAuctioneer`. -/
def registerWithAuctioneer (env : Env) (g : Globals) (name : String) (config : Config) :
    RegisterRun :=
  let url := config.AunctioneerHost ++ config.AunctioneerPath
  let body : List (String × Value) := [("name", Value.str name), ("delay", Value.int g.Delay)]
  match NewRequest env "POST" url body with
  | .error err => { outcome := .returned (some err), globals := g, sent := [] }
  | .ok req0 =>
    let req := prepareRequest g req0
    match env.Do req with
    | .ok resp =>
      if resp.StatusCode ≠ 201 then
        { outcome := .returned (some "Server error!!"), globals := g, sent := [req] }
      else
        match env.Decode resp.Body with
        | .error err => { outcome := .returned (some err), globals := g, sent := [req] }
        | .ok res =>
          if resp.StatusCode > 201 then
            { outcome := .returned (some res.Meta.Message), globals := g, sent := [req] }
          else
            match res.Data with
            | none =>
              { outcome := .panicked "invalid memory address or nil pointer dereference",
                globals := g, sent := [req] }
            | some d =>
              { outcome := .returned none, globals := { g with BidderID := d.ID }, sent := [req] }
    | .error err => { outcome := .returned (some err), globals := g, sent := [req] }

/-! ## Startup -/

/-- Command line after `flag.Parse()`: each flag is present with a value or absent.
The `-delay` flag is a `uint`, so its value is below `2 ^ 64`. -/
structure CommandLine where
  name : Option String
  port : Option Int
  delay : Option Nat
  deriving DecidableEq, Repr

/-- Observable actions of the startup sequence, in the order they happen. -/
inductive Event where
  | println (msg : String)
  | routePOST (path : String)
  | registerCall (name : String) (config : Config)
  | httpDo (req : Request)
  | printf (msg : String)
  | run (addr : String)
  deriving DecidableEq, Repr

/-- Recognises a call of `registerWithAuctioneer`. -/
def Event.isRegisterCall : Event → Bool
  | .registerCall _ _ => true
  | _ => false

/-- Recognises a request handed to the HTTP client. -/
def Event.isHttpDo : Event → Bool
  | .httpDo _ => true
  | _ => false

/-- Recognises the start of the listener, `router.Run`. -/
def Event.isRun : Event → Bool
  | .run _ => true
  | _ => false

/-- How the startup sequence ends: `log.Fatal` terminates the process, a panic
crashes it, or control stays in `router.Run`. -/
inductive Exit where
  | fatal (msg : String)
  | panic (msg : String)
  | serving
  deriving DecidableEq, Repr

/-- Result of running `main`. -/
structure MainRun where
  exit : Exit
  globals : Globals
  events : List Event
  deriving DecidableEq, Repr

/-- Function `main`. The flag defaults are those given to `flag.String`, `flag.Int`
and `flag.Uint`; the CORS middleware does not take part in the startup decisions. -/
def main (env : Env) (cl : CommandLine) (g : Globals) : MainRun :=
  let name := cl.name.getD "Sample"
  let port := cl.port.getD 0
  let delay := cl.delay.getD 0
  match env.ReadInConfig with
  | some err => { exit := .fatal ("Error reading config file, " ++ err), globals := g, events := [] }
  | none =>
    match env.Unmarshal with
    | .error err =>
      { exit := .fatal ("unable to decode into struct, " ++ err), globals := g, events := [] }
    | .ok config =>
      if port = 0 then
        { exit := .fatal "invalid port or port required", globals := g, events := [] }
      else
        let ev1 : List Event := if delay > 500 then [.println "delay more than 500ms"] else []
        let g1 : Globals := { g with Port := port, Delay := durationOfDelayFlag delay }
        let ev2 := ev1 ++ [.routePOST "v1/bid", .registerCall name config]
        let r := registerWithAuctioneer env g1 name config
        let ev3 := ev2 ++ r.sent.map Event.httpDo
        match r.outcome with
        | .panicked msg => { exit := .panic msg, globals := r.globals, events := ev3 }
        | .returned (some err) =>
          { exit := .fatal ("Can't able to register with auctioneer. Err: " ++ err),
            globals := r.globals, events := ev3 }
        | .returned none =>
          { exit := .serving, globals := r.globals,
            events := ev3 ++
              [.printf ("Starting bidder " ++ name ++ " on port :" ++ toString port ++
                  " with delay " ++ toString delay ++ "\n"),
               .run (":" ++ toString port)] }

/-- The call `registerWithAuctioneer(*name, &config)` as `main` makes it: with `Port`
and `Delay` already set from the flags. -/
abbrev registrationOf (env : Env) (cl : CommandLine) (g : Globals) (config : Config) :
    RegisterRun :=
  registerWithAuctioneer env
    { g with Port := cl.port.getD 0, Delay := durationOfDelayFlag (cl.delay.getD 0) }
    (cl.name.getD "Sample") config

/-! ## Sample inputs -/

/-- Config of the sample environment. -/
def sampleConfig : Config :=
  { AunctioneerHost := "http://localhost:8080", AunctioneerPath := "/v1/bidder" }

/-- Environment in which the config loads, the URL parses, the auctioneer answers
with the given response, the decoder yields the given result and every draw from
`rand.Intn n` is `n - 1`. -/
def sampleEnv (resp : Except String HTTPResponse) (dec : Except String RegistrationReply) : Env where
  ReadInConfig := none
  Unmarshal := .ok sampleConfig
  urlHost := fun _ => .ok "localhost:8080"
  Do := fun _ => resp
  Decode := fun _ => dec
  Intn := fun n => n - 1

/-- Request of a client of the bid endpoint. -/
def sampleContext : Context := { method := "POST", path := "/v1/bid", body := "" }

/-- Globals at process start: the zero values. -/
def zeroGlobals : Globals := { Port := 0, Delay := 0, BidderID := "" }

/-! ## JSON text and the stream decoder

The response body is decoded with `json.NewDecoder(resp.Body).Decode(&res)`. The
decoder of `encoding/json` is a stream decoder: it reads the first JSON value of the
stream and unmarshals that value; what follows the value in the body is not looked
at. The grammar below is that of JSON texts (RFC 8259), on characters. -/

/-- JSON whitespace: space, tab, line feed, carriage return. -/
def isJSONSpace (c : Char) : Bool :=
  c.toNat = 32 || c.toNat = 9 || c.toNat = 10 || c.toNat = 13

/-- Drops leading whitespace. -/
def skipSpace : List Char → List Char
  | [] => []
  | c :: cs => if isJSONSpace c then skipSpace cs else c :: cs

/-- Hexadecimal digit, as used after `\u` in a string. -/
def isHexDigit (c : Char) : Bool :=
  c.isDigit || (97 ≤ c.toNat && c.toNat ≤ 102) || (65 ≤ c.toNat && c.toNat ≤ 70)

/-- Position inside a string literal: plain text, right after a backslash, or inside
a `\u` escape with the given number of hexadecimal digits still to come. -/
inductive StrState where
  | plain
  | escaped
  | hex (pending : Nat)
  deriving DecidableEq, Repr

/-- Scans a string literal after its opening quote; gives what follows the closing
quote. Characters: 34 is the double quote, 92 the backslash, 117 the letter u; the
one-letter escapes are the quote, the backslash, the slash and b, f, n, r, t. -/
def scanString : StrState → List Char → Option (List Char)
  | _, [] => none
  | .plain, c :: cs =>
    if c.toNat = 34 then some cs
    else if c.toNat = 92 then scanString .escaped cs
    else if c.toNat < 32 then none
    else scanString .plain cs
  | .escaped, c :: cs =>
    if c.toNat = 117 then scanString (.hex 4) cs
    else if c.toNat = 34 || c.toNat = 92 || c.toNat = 47 || c.toNat = 98 || c.toNat = 102 ||
        c.toNat = 110 || c.toNat = 114 || c.toNat = 116 then scanString .plain cs
    else none
  | .hex n, c :: cs =>
    if isHexDigit c then
      if n ≤ 1 then scanString .plain cs else scanString (.hex (n - 1)) cs
    else none

/-- Position inside a number: after the minus sign, after a leading zero, inside the
integer digits, after the decimal point, inside the fraction digits, after the
exponent letter, after the exponent sign, inside the exponent digits. -/
inductive NumState where
  | sign
  | zero
  | int
  | dot
  | frac
  | e
  | esign
  | exp
  deriving DecidableEq, Repr

/-- Scans a number from the given position; gives what follows the number. The number
stops before the first character that cannot continue it. Characters: 48 is the
digit zero, 46 the point, 101 and 69 the exponent letters, 43 plus, 45 minus. -/
def scanNumber : NumState → List Char → Option (List Char)
  | .zero, [] => some []
  | .int, [] => some []
  | .frac, [] => some []
  | .exp, [] => some []
  | _, [] => none
  | .sign, c :: cs =>
    if c.toNat = 48 then scanNumber .zero cs
    else if c.isDigit then scanNumber .int cs
    else none
  | .zero, c :: cs =>
    if c.toNat = 46 then scanNumber .dot cs
    else if c.toNat = 101 || c.toNat = 69 then scanNumber .e cs
    else some (c :: cs)
  | .int, c :: cs =>
    if c.isDigit then scanNumber .int cs
    else if c.toNat = 46 then scanNumber .dot cs
    else if c.toNat = 101 || c.toNat = 69 then scanNumber .e cs
    else some (c :: cs)
  | .dot, c :: cs => if c.isDigit then scanNumber .frac cs else none
  | .frac, c :: cs =>
    if c.isDigit then scanNumber .frac cs
    else if c.toNat = 101 || c.toNat = 69 then scanNumber .e cs
    else some (c :: cs)
  | .e, c :: cs =>
    if c.toNat = 43 || c.toNat = 45 then scanNumber .esign cs
    else if c.isDigit then scanNumber .exp cs
    else none
  | .esign, c :: cs => if c.isDigit then scanNumber .exp cs else none
  | .exp, c :: cs => if c.isDigit then scanNumber .exp cs else some (c :: cs)

/-- Scans the given characters literally (the rest of `true`, `false`, `null`). -/
def scanLiteral : List Char → List Char → Option (List Char)
  | [], cs => some cs
  | _ :: _, [] => none
  | e :: es, c :: cs => if c = e then scanLiteral es cs else none

/-- What the scanner is to read next: a value, the members of an object (after its
opening brace or a comma), or the elements of an array. -/
inductive Goal where
  | value
  | members
  | elements
  deriving DecidableEq, Repr

/-- Scans one JSON value (or the rest of an object or array) and gives what follows
it; `none` when the text does not start with one. The fuel bounds the depth of the
recursion. Characters: 123 and 125 are the braces, 91 and 93 the brackets, 34 the
double quote, 58 the colon, 44 the comma, 45 minus, 48 the digit zero. -/
def scanJSON : Nat → Goal → List Char → Option (List Char)
  | 0, _, _ => none
  | fuel + 1, .value, cs =>
    match skipSpace cs with
    | [] => none
    | c :: rest =>
      if c.toNat = 123 then
        match skipSpace rest with
        | [] => none
        | c1 :: rest1 =>
          if c1.toNat = 125 then some rest1 else scanJSON fuel .members (c1 :: rest1)
      else if c.toNat = 91 then
        match skipSpace rest with
        | [] => none
        | c1 :: rest1 =>
          if c1.toNat = 93 then some rest1 else scanJSON fuel .elements (c1 :: rest1)
      else if c.toNat = 34 then scanString .plain rest
      else if c.toNat = 45 then scanNumber .sign rest
      else if c.toNat = 48 then scanNumber .zero rest
      else if c.isDigit then scanNumber .int rest
      else if c = 't' then scanLiteral ['r', 'u', 'e'] rest
      else if c = 'f' then scanLiteral ['a', 'l', 's', 'e'] rest
      else if c = 'n' then scanLiteral ['u', 'l', 'l'] rest
      else none
  | fuel + 1, .members, cs =>
    match skipSpace cs with
    | [] => none
    | c :: rest =>
      if c.toNat = 34 then
        match scanString .plain rest with
        | none => none
        | some afterKey =>
          match skipSpace afterKey with
          | [] => none
          | c2 :: rest2 =>
            if c2.toNat = 58 then
              match scanJSON fuel .value rest2 with
              | none => none
              | some afterValue =>
                match skipSpace afterValue with
                | [] => none
                | c3 :: rest3 =>
                  if c3.toNat = 44 then scanJSON fuel .members rest3
                  else if c3.toNat = 125 then some rest3
                  else none
            else none
      else none
  | fuel + 1, .elements, cs =>
    match scanJSON fuel .value cs with
    | none => none
    | some afterValue =>
      match skipSpace afterValue with
      | [] => none
      | c :: rest =>
        if c.toNat = 44 then scanJSON fuel .elements rest
        else if c.toNat = 93 then some rest
        else none

/-- Splits a body after its first JSON value: the text of the value and the text that
follows it; `none` when the body does not start with a JSON value. A scan of a text
of `n` characters nests at most `2 * n + 1` calls. -/
def firstValue (body : String) : Option (String × String) :=
  match scanJSON (2 * body.toList.length + 2) .value body.toList with
  | none => none
  | some rest =>
    some (String.mk (body.toList.take (body.toList.length - rest.length)), String.mk rest)

/-- Stream decoding as `(*json.Decoder).Decode` does it: the first JSON value of the
body is handed to the unmarshalling step; a body that does not start with a JSON
value is a decode error; the text after the first value is ignored. -/
def streamDecode (unmarshal : String → Except String RegistrationReply) (body : String) :
    Except String RegistrationReply :=
  match firstValue body with
  | none => .error "json: body does not start with a JSON value"
  | some (value, _) => unmarshal value

end AdBidder

/-! ## Arithmetic helpers -/

namespace AdBidder

theorem wrapInt64_of_inRange (x : Int) (hlo : -9223372036854775808 ≤ x)
    (hhi : x < 9223372036854775808) : wrapInt64 x = x := by
  unfold wrapInt64
  omega

theorem wrapInt64_inRange (x : Int) :
    -9223372036854775808 ≤ wrapInt64 x ∧ wrapInt64 x < 9223372036854775808 := by
  unfold wrapInt64
  omega

/-- Argument `max-min+1` of the call of `rand.Intn` in `bidHandler`. -/
theorem bidHandler_intn_arg : wrapInt64 (wrapInt64 (3000 - 100) + 1) = 2901 := by
  decide

/-! ## The bid handler -/

/-- Claim C1: whenever the draw `rand.Intn(max-min+1)` obeys its contract
`0 ≤ r < 2901`, the amount in the bid response is `r + 100` and lies in `[100, 3000]`;
both endpoints are reached (a draw of `0` gives `100`, a draw of `2900` gives `3000`),
and every integer of `[100, 3000]` is the amount of some admissible draw. -/
theorem bidHandler_amount_range (env : Env) (g : Globals) (c : Context)
    (hlo : 0 ≤ env.Intn 2901) (hhi : env.Intn 2901 < 2901) :
    (∃ a : Int,
        (bidHandler env g c).map (fun w => field "amount" w.obj.Data) = [some (Value.int a)] ∧
        a = env.Intn 2901 + 100 ∧ 100 ≤ a ∧ a ≤ 3000 ∧
        (env.Intn 2901 = 0 → a = 100) ∧ (env.Intn 2901 = 2900 → a = 3000)) ∧
    (∀ a : Int, 100 ≤ a → a ≤ 3000 →
        ∃ env' : Env, 0 ≤ env'.Intn 2901 ∧ env'.Intn 2901 < 2901 ∧
          (bidHandler env' g c).map (fun w => field "amount" w.obj.Data) =
            [some (Value.int a)]) := by
  constructor
  · refine ⟨env.Intn 2901 + 100, ?_, rfl, by omega, by omega, by omega, by omega⟩
    simp only [bidHandler, bidHandler_intn_arg, List.map, field]
    rw [wrapInt64_of_inRange _ (by omega) (by omega)]
    simp
  · intro a ha1 ha2
    refine ⟨{ env with Intn := fun _ => a - 100 }, by simp; omega, by simp; omega, ?_⟩
    simp only [bidHandler, bidHandler_intn_arg, List.map, field]
    rw [wrapInt64_of_inRange _ (by omega) (by omega)]
    simp

/-- Witness for C1: in the sample environment the draw is `2900`, within the
contract, and the amount written is the upper endpoint `3000`. -/
theorem bidHandler_amount_range_witness :
    (0 : Int) ≤ (sampleEnv (.error "") (.error "")).Intn 2901 ∧
    (sampleEnv (.error "") (.error "")).Intn 2901 < 2901 ∧
    (bidHandler (sampleEnv (.error "") (.error "")) zeroGlobals sampleContext).map
      (fun w => field "amount" w.obj.Data) = [some (Value.int 3000)] := by
  have h := bidHandler_amount_range (sampleEnv (.error "") (.error "")) zeroGlobals
    sampleContext (by decide) (by decide)
  obtain ⟨⟨a, h1, h2, -, -, -, h3⟩, -⟩ := h
  refine ⟨by decide, by decide, ?_⟩
  rw [h1, h3 (by decide)]

/-- Claim C2: for every stored `BidderID`, every two incoming requests and every
draw obeying the contract of `rand.Intn`, `bidHandler` writes exactly one response;
its code is 200, `data.bidder_id` is the stored `BidderID`, `data.amount` is the
drawn amount, `meta.status` is 200; and the response is the same for both requests.
The handler is a total function with no error result. -/
theorem bidHandler_response (env : Env) (g : Globals) (c c' : Context)
    (hlo : 0 ≤ env.Intn 2901) (hhi : env.Intn 2901 < 2901) :
    (∃ w : JSONWrite, bidHandler env g c = [w] ∧
        w.code = 200 ∧
        w.obj.Data.map Prod.fst = ["bidder_id", "amount"] ∧
        field "bidder_id" w.obj.Data = some (Value.str g.BidderID) ∧
        field "amount" w.obj.Data = some (Value.int (env.Intn 2901 + 100)) ∧
        w.obj.Meta.Status = 200) ∧
    bidHandler env g c' = bidHandler env g c := by
  refine ⟨⟨_, rfl, rfl, rfl, ?_, ?_, rfl⟩, rfl⟩
  · simp [field]
  · simp only [bidHandler_intn_arg, field]
    rw [wrapInt64_of_inRange _ (by omega) (by omega)]
    simp

/-- Witness for C2: with the identifier `"b-7"` stored and a request carrying a
body, the sample environment (draw `2900`) gives the same single response as for
the sample request. -/
theorem bidHandler_response_witness :
    (0 : Int) ≤ (sampleEnv (.error "") (.error "")).Intn 2901 ∧
    (sampleEnv (.error "") (.error "")).Intn 2901 < 2901 ∧
    bidHandler (sampleEnv (.error "") (.error "")) { zeroGlobals with BidderID := "b-7" }
        { sampleContext with body := "not json" } =
      bidHandler (sampleEnv (.error "") (.error "")) { zeroGlobals with BidderID := "b-7" }
        sampleContext ∧
    (bidHandler (sampleEnv (.error "") (.error "")) { zeroGlobals with BidderID := "b-7" }
        sampleContext).length = 1 :=
  ⟨by decide, by decide, (bidHandler_response (sampleEnv (.error "") (.error ""))
      { zeroGlobals with BidderID := "b-7" } sampleContext
      { sampleContext with body := "not json" } (by decide) (by decide)).2, rfl⟩

/-! ## Registration -/

/-- A request reaches the HTTP client only when `http.NewRequest` accepted the URL,
and it is the request prepared from the one `http.NewRequest` built. -/
theorem register_sent_inv (env : Env) (g : Globals) (name : String) (config : Config)
    (req : Request) (hsent : (registerWithAuctioneer env g name config).sent = [req]) :
    ∃ req0, NewRequest env "POST" (config.AunctioneerHost ++ config.AunctioneerPath)
        [("name", Value.str name), ("delay", Value.int g.Delay)] = .ok req0 ∧
      req = prepareRequest g req0 := by
  unfold registerWithAuctioneer at hsent
  cases hnew : NewRequest env "POST" (config.AunctioneerHost ++ config.AunctioneerPath)
      [("name", Value.str name), ("delay", Value.int g.Delay)] with
  | error err => simp [hnew] at hsent
  | ok req0 =>
    refine ⟨req0, rfl, ?_⟩
    simp only [hnew] at hsent
    split at hsent
    · split at hsent
      · simpa using hsent.symm
      · split at hsent
        · simpa using hsent.symm
        · split at hsent
          · simpa using hsent.symm
          · split at hsent <;> simpa using hsent.symm
    · simpa using hsent.symm

/-- Unfolding of `registerWithAuctioneer` once the request handed to the client is known:
what remains is the case analysis on the answer of the client. -/
theorem register_eq_of_sent (env : Env) (g : Globals) (name : String) (config : Config)
    (req : Request) (hsent : (registerWithAuctioneer env g name config).sent = [req]) :
    registerWithAuctioneer env g name config =
      match env.Do req with
      | .ok resp =>
        if resp.StatusCode ≠ 201 then
          { outcome := .returned (some "Server error!!"), globals := g, sent := [req] }
        else
          match env.Decode resp.Body with
          | .error err => { outcome := .returned (some err), globals := g, sent := [req] }
          | .ok res =>
            if resp.StatusCode > 201 then
              { outcome := .returned (some res.Meta.Message), globals := g, sent := [req] }
            else
              match res.Data with
              | none =>
                { outcome := .panicked "invalid memory address or nil pointer dereference",
                  globals := g, sent := [req] }
              | some d =>
                { outcome := .returned none, globals := { g with BidderID := d.ID },
                  sent := [req] }
      | .error err => { outcome := .returned (some err), globals := g, sent := [req] } := by
  obtain ⟨req0, hnew, rfl⟩ := register_sent_inv env g name config req hsent
  unfold registerWithAuctioneer
  simp only [hnew]

/-- A status other than 201 ends the registration with the generic error, whatever
the body of the response holds. -/
theorem register_non201 (env : Env) (g : Globals) (name : String) (config : Config)
    (req : Request) (resp : HTTPResponse)
    (hsent : (registerWithAuctioneer env g name config).sent = [req])
    (hdo : env.Do req = .ok resp) (hst : resp.StatusCode ≠ 201) :
    registerWithAuctioneer env g name config =
      { outcome := .returned (some "Server error!!"), globals := g, sent := [req] } := by
  rw [register_eq_of_sent env g name config req hsent]
  simp [hdo, hst]

/-- A transport error of the client is returned as it is. -/
theorem register_network_error (env : Env) (g : Globals) (name : String) (config : Config)
    (req : Request) (err : String)
    (hsent : (registerWithAuctioneer env g name config).sent = [req])
    (hdo : env.Do req = .error err) :
    registerWithAuctioneer env g name config =
      { outcome := .returned (some err), globals := g, sent := [req] } := by
  rw [register_eq_of_sent env g name config req hsent]
  simp [hdo]

/-- Registration never changes `Port` or `Delay`. -/
theorem register_keeps_port_delay (env : Env) (g : Globals) (name : String) (config : Config) :
    (registerWithAuctioneer env g name config).globals.Port = g.Port ∧
    (registerWithAuctioneer env g name config).globals.Delay = g.Delay := by
  unfold registerWithAuctioneer
  dsimp only
  repeat' split
  all_goals exact ⟨rfl, rfl⟩

/-- Registration hands at most one request to the client. -/
theorem register_sent_length (env : Env) (g : Globals) (name : String) (config : Config) :
    (registerWithAuctioneer env g name config).sent.length ≤ 1 := by
  unfold registerWithAuctioneer
  dsimp only
  repeat' split
  all_goals simp

/-- Claim C3: when the auctioneer answers the registration request with status 201
and a body that decodes to `data.id = s`, `registerWithAuctioneer` returns nil, the
process-wide `BidderID` is `s` afterwards, and every later response of `bidHandler`
carries `bidder_id = s`. -/
theorem register_success_stores_id (env : Env) (g : Globals) (name : String)
    (config : Config) (req : Request) (resp : HTTPResponse) (s : String) (m : Meta)
    (hsent : (registerWithAuctioneer env g name config).sent = [req])
    (hdo : env.Do req = .ok resp) (hst : resp.StatusCode = 201)
    (hdec : env.Decode resp.Body = .ok { Data := some { ID := s }, Meta := m }) :
    (registerWithAuctioneer env g name config).outcome = .returned none ∧
    (registerWithAuctioneer env g name config).globals.BidderID = s ∧
    ∀ (env' : Env) (c : Context),
      (bidHandler env' (registerWithAuctioneer env g name config).globals c).map
        (fun w => field "bidder_id" w.obj.Data) = [some (Value.str s)] := by
  rw [register_eq_of_sent env g name config req hsent]
  simp [hdo, hst, hdec, bidHandler, field]

/-- Witness for C3: the auctioneer answers 201 with the identifier `"bidder-42"`. -/
theorem register_success_stores_id_witness :
    (registerWithAuctioneer
        (sampleEnv (.ok { StatusCode := 201, Body := "ok" })
          (.ok { Data := some { ID := "bidder-42" }, Meta := { Status := 201, Message := "" } }))
        zeroGlobals "Sample" sampleConfig).outcome = .returned none ∧
    (registerWithAuctioneer
        (sampleEnv (.ok { StatusCode := 201, Body := "ok" })
          (.ok { Data := some { ID := "bidder-42" }, Meta := { Status := 201, Message := "" } }))
        zeroGlobals "Sample" sampleConfig).globals.BidderID = "bidder-42" :=
  let h := register_success_stores_id
    (sampleEnv (.ok { StatusCode := 201, Body := "ok" })
      (.ok { Data := some { ID := "bidder-42" }, Meta := { Status := 201, Message := "" } }))
    zeroGlobals "Sample" sampleConfig _ { StatusCode := 201, Body := "ok" } "bidder-42"
    { Status := 201, Message := "" } rfl rfl rfl rfl
  ⟨h.1, h.2.1⟩

/-- The stream decoder unmarshals the first JSON value of the body and nothing else:
two bodies with the same first value decode alike. -/
theorem streamDecode_first_value_only (unmarshal : String → Except String RegistrationReply)
    (body value rest : String) (hfirst : firstValue body = some (value, rest)) :
    streamDecode unmarshal body = unmarshal value := by
  simp [streamDecode, hfirst]

/-- Claim C4, evaluated at status 400 with `meta.message = "bad request"`: the check
`resp.StatusCode != 201` returns first, so the error is the generic `"Server error!!"`
and not the message of the response metadata; the branch `resp.StatusCode > 201` that
would return `res.Meta.Message` is never reached. -/
theorem register_status400_generic_error :
    (registerWithAuctioneer
        (sampleEnv
          (.ok { StatusCode := 400,
                 Body := "\x7b\"meta\":\x7b\"status\":400,\"message\":\"bad request\"\x7d\x7d" })
          (.ok { Data := none, Meta := { Status := 400, Message := "bad request" } }))
        zeroGlobals "Sample" sampleConfig).outcome = .returned (some "Server error!!") ∧
    (registerWithAuctioneer
        (sampleEnv
          (.ok { StatusCode := 400,
                 Body := "\x7b\"meta\":\x7b\"status\":400,\"message\":\"bad request\"\x7d\x7d" })
          (.ok { Data := none, Meta := { Status := 400, Message := "bad request" } }))
        zeroGlobals "Sample" sampleConfig).outcome ≠ .returned (some "bad request") := by
  constructor
  · rfl
  · decide

/-- Claim C10, evaluated at status 201 with the bodies `{}` and `{"data": null}`, which
decode with `Data` left nil: the read `res.Data.ID` panics, so the call neither
returns an error nor succeeds. -/
theorem register_nil_data_panics :
    (registerWithAuctioneer
        (sampleEnv (.ok { StatusCode := 201, Body := "\x7b\x7d" })
          (.ok { Data := none, Meta := { Status := 0, Message := "" } }))
        zeroGlobals "Sample" sampleConfig).outcome =
      .panicked "invalid memory address or nil pointer dereference" ∧
    (registerWithAuctioneer
        (sampleEnv (.ok { StatusCode := 201, Body := "\x7b\"data\": null\x7d" })
          (.ok { Data := none, Meta := { Status := 0, Message := "" } }))
        zeroGlobals "Sample" sampleConfig).outcome =
      .panicked "invalid memory address or nil pointer dereference" :=
  ⟨rfl, rfl⟩

/-- Claim C8: when the URL `host ++ path` is accepted by `http.NewRequest`, exactly one
request is handed to the client: a POST to that URL, with `Host` equal to
`localhost:` followed by the decimal `Port`, the single header
`Content-Type: application/json`, and a JSON object with exactly the keys `name`
(the bidder name) and `delay` (the stored `Delay`). -/
theorem register_request (env : Env) (g : Globals) (name : String) (config : Config)
    (h : String)
    (hurl : env.urlHost (config.AunctioneerHost ++ config.AunctioneerPath) = .ok h) :
    (registerWithAuctioneer env g name config).sent =
      [{ Method := "POST",
         URL := config.AunctioneerHost ++ config.AunctioneerPath,
         Host := "localhost:" ++ toString g.Port,
         Header := [("Content-Type", "application/json")],
         Body := [("name", Value.str name), ("delay", Value.int g.Delay)] }] := by
  have hnew : NewRequest env "POST" (config.AunctioneerHost ++ config.AunctioneerPath)
      [("name", Value.str name), ("delay", Value.int g.Delay)] =
      .ok { Method := "POST", URL := config.AunctioneerHost ++ config.AunctioneerPath,
            Host := h, Header := [],
            Body := [("name", Value.str name), ("delay", Value.int g.Delay)] } := by
    simp [NewRequest, hurl]
  have hprep : prepareRequest g
      { Method := "POST", URL := config.AunctioneerHost ++ config.AunctioneerPath,
        Host := h, Header := [],
        Body := [("name", Value.str name), ("delay", Value.int g.Delay)] } =
      { Method := "POST", URL := config.AunctioneerHost ++ config.AunctioneerPath,
        Host := "localhost:" ++ toString g.Port,
        Header := [("Content-Type", "application/json")],
        Body := [("name", Value.str name), ("delay", Value.int g.Delay)] } := rfl
  unfold registerWithAuctioneer
  simp only [hnew, hprep]
  repeat' split
  all_goals rfl

/-- Witness for C8: bidder `"Sample"` on port 9000 with a delay of 20 ms. -/
theorem register_request_witness :
    (sampleEnv (.error "connection refused") (.error "")).urlHost
        (sampleConfig.AunctioneerHost ++ sampleConfig.AunctioneerPath) = .ok "localhost:8080" ∧
    (registerWithAuctioneer (sampleEnv (.error "connection refused") (.error ""))
        { Port := 9000, Delay := 20000000, BidderID := "" } "Sample" sampleConfig).sent =
      [{ Method := "POST",
         URL := "http://localhost:8080/v1/bidder",
         Host := "localhost:9000",
         Header := [("Content-Type", "application/json")],
         Body := [("name", Value.str "Sample"), ("delay", Value.int 20000000)] }] :=
  ⟨rfl, register_request (sampleEnv (.error "connection refused") (.error ""))
    { Port := 9000, Delay := 20000000, BidderID := "" } "Sample" sampleConfig
    "localhost:8080" rfl⟩

/-! ## Startup -/

/-- Unfolding of `main` once the config is loaded and the port is not zero: what is
left is the registration and the case analysis on how it ended. -/
theorem main_eq_of_loaded (env : Env) (cl : CommandLine) (g : Globals) (config : Config)
    (hread : env.ReadInConfig = none) (hum : env.Unmarshal = .ok config)
    (hport : cl.port.getD 0 ≠ 0) :
    main env cl g =
      match (registerWithAuctioneer env
          { g with Port := cl.port.getD 0, Delay := durationOfDelayFlag (cl.delay.getD 0) }
          (cl.name.getD "Sample") config).outcome with
      | .panicked msg =>
        { exit := .panic msg,
          globals := (registerWithAuctioneer env
            { g with Port := cl.port.getD 0, Delay := durationOfDelayFlag (cl.delay.getD 0) }
            (cl.name.getD "Sample") config).globals,
          events := ((if cl.delay.getD 0 > 500 then [Event.println "delay more than 500ms"]
              else []) ++
            [.routePOST "v1/bid", .registerCall (cl.name.getD "Sample") config]) ++
            (registerWithAuctioneer env
              { g with Port := cl.port.getD 0, Delay := durationOfDelayFlag (cl.delay.getD 0) }
              (cl.name.getD "Sample") config).sent.map Event.httpDo }
      | .returned (some err) =>
        { exit := .fatal ("Can't able to register with auctioneer. Err: " ++ err),
          globals := (registerWithAuctioneer env
            { g with Port := cl.port.getD 0, Delay := durationOfDelayFlag (cl.delay.getD 0) }
            (cl.name.getD "Sample") config).globals,
          events := ((if cl.delay.getD 0 > 500 then [Event.println "delay more than 500ms"]
              else []) ++
            [.routePOST "v1/bid", .registerCall (cl.name.getD "Sample") config]) ++
            (registerWithAuctioneer env
              { g with Port := cl.port.getD 0, Delay := durationOfDelayFlag (cl.delay.getD 0) }
              (cl.name.getD "Sample") config).sent.map Event.httpDo }
      | .returned none =>
        { exit := .serving,
          globals := (registerWithAuctioneer env
            { g with Port := cl.port.getD 0, Delay := durationOfDelayFlag (cl.delay.getD 0) }
            (cl.name.getD "Sample") config).globals,
          events := (((if cl.delay.getD 0 > 500 then [Event.println "delay more than 500ms"]
              else []) ++
            [.routePOST "v1/bid", .registerCall (cl.name.getD "Sample") config]) ++
            (registerWithAuctioneer env
              { g with Port := cl.port.getD 0, Delay := durationOfDelayFlag (cl.delay.getD 0) }
              (cl.name.getD "Sample") config).sent.map Event.httpDo) ++
            [.printf ("Starting bidder " ++ cl.name.getD "Sample" ++ " on port :" ++
                toString (cl.port.getD 0) ++ " with delay " ++ toString (cl.delay.getD 0) ++
                "\n"),
             .run (":" ++ toString (cl.port.getD 0))] } := by
  unfold main
  simp only [hread, hum, if_neg hport]

/-- Events before the outcome of the registration is known hold one call of
`registerWithAuctioneer` and no start of the listener. -/
theorem startup_events_counts (d : Nat) (name : String) (config : Config)
    (sent : List Request) :
    (((if d > 500 then [Event.println "delay more than 500ms"] else []) ++
        [Event.routePOST "v1/bid", Event.registerCall name config]) ++
        sent.map Event.httpDo).countP Event.isRegisterCall = 1 ∧
    (((if d > 500 then [Event.println "delay more than 500ms"] else []) ++
        [Event.routePOST "v1/bid", Event.registerCall name config]) ++
        sent.map Event.httpDo).any Event.isRun = false := by
  have h1 : (sent.map Event.httpDo).countP Event.isRegisterCall = 0 := by
    induction sent with
    | nil => rfl
    | cons r rs ih => simp [List.countP_cons, Event.isRegisterCall]
  have h2 : (sent.map Event.httpDo).any Event.isRun = false := by
    induction sent with
    | nil => rfl
    | cons r rs ih => simp [Event.isRun]
  constructor
  · rw [List.countP_append, h1]
    split <;> simp [List.countP_cons, Event.isRegisterCall]
  · rw [List.any_append, h2]
    split <;> simp [Event.isRun]

/-- Claim C6: with the port flag `0` or absent, `main` ends in a fatal exit having
made no call of `registerWithAuctioneer`, sent no request and never started the
listener, whatever the config loading gives and whatever the other flags are; and
for every configuration that was read and decoded the fatal exit is the one of the
port check. -/
theorem main_port_zero_fatal (env : Env) (cl : CommandLine) (g : Globals)
    (hport : cl.port.getD 0 = 0) :
    (∃ msg, (main env cl g).exit = .fatal msg) ∧
    (main env cl g).events.countP Event.isRegisterCall = 0 ∧
    (main env cl g).events.countP Event.isHttpDo = 0 ∧
    (main env cl g).events.any Event.isRun = false ∧
    (∀ config : Config, env.ReadInConfig = none → env.Unmarshal = .ok config →
      (main env cl g).exit = .fatal "invalid port or port required") := by
  unfold main
  simp only [hport, if_true]
  cases hread : env.ReadInConfig with
  | some err => simp
  | none =>
    cases hum : env.Unmarshal with
    | error err => simp
    | ok config => simp

/-- Witness for C6: no `-port` flag, config loaded, an auctioneer that would accept
the registration. -/
theorem main_port_zero_fatal_witness :
    ({ name := some "b1", port := none, delay := some 10 } : CommandLine).port.getD 0 = 0 ∧
    (main (sampleEnv (.ok { StatusCode := 201, Body := "ok" })
        (.ok { Data := some { ID := "bidder-42" }, Meta := { Status := 201, Message := "" } }))
      { name := some "b1", port := none, delay := some 10 } zeroGlobals).exit =
      .fatal "invalid port or port required" ∧
    (main (sampleEnv (.ok { StatusCode := 201, Body := "ok" })
        (.ok { Data := some { ID := "bidder-42" }, Meta := { Status := 201, Message := "" } }))
      { name := some "b1", port := none, delay := some 10 } zeroGlobals).events.any
        Event.isRun = false :=
  let h := main_port_zero_fatal
    (sampleEnv (.ok { StatusCode := 201, Body := "ok" })
      (.ok { Data := some { ID := "bidder-42" }, Meta := { Status := 201, Message := "" } }))
    { name := some "b1", port := none, delay := some 10 } zeroGlobals rfl
  ⟨rfl, h.2.2.2.2 sampleConfig rfl rfl, h.2.2.2.1⟩

/-- Startup with a loaded config and a non-zero port, by the outcome of the
registration: an error gives the fatal exit without the listener, and the listener
starts exactly when the registration returned nil. -/
theorem main_after_registration (env : Env) (cl : CommandLine) (g : Globals)
    (config : Config) (hread : env.ReadInConfig = none) (hum : env.Unmarshal = .ok config)
    (hport : cl.port.getD 0 ≠ 0) :
    (main env cl g).events.countP Event.isRegisterCall = 1 ∧
    (∀ err, (registerWithAuctioneer env
          { g with Port := cl.port.getD 0, Delay := durationOfDelayFlag (cl.delay.getD 0) }
          (cl.name.getD "Sample") config).outcome = .returned (some err) →
        (main env cl g).exit = .fatal ("Can't able to register with auctioneer. Err: " ++ err) ∧
        (main env cl g).events.any Event.isRun = false) ∧
    (∀ msg, (registerWithAuctioneer env
          { g with Port := cl.port.getD 0, Delay := durationOfDelayFlag (cl.delay.getD 0) }
          (cl.name.getD "Sample") config).outcome = .panicked msg →
        (main env cl g).exit = .panic msg ∧
        (main env cl g).events.any Event.isRun = false) ∧
    ((registerWithAuctioneer env
          { g with Port := cl.port.getD 0, Delay := durationOfDelayFlag (cl.delay.getD 0) }
          (cl.name.getD "Sample") config).outcome = .returned none →
        (main env cl g).exit = .serving ∧
        (main env cl g).events.getLast? = some (.run (":" ++ toString (cl.port.getD 0)))) := by
  have hc := startup_events_counts (cl.delay.getD 0) (cl.name.getD "Sample") config
    (registerWithAuctioneer env
      { g with Port := cl.port.getD 0, Delay := durationOfDelayFlag (cl.delay.getD 0) }
      (cl.name.getD "Sample") config).sent
  rw [main_eq_of_loaded env cl g config hread hum hport]
  cases hout : (registerWithAuctioneer env
      { g with Port := cl.port.getD 0, Delay := durationOfDelayFlag (cl.delay.getD 0) }
      (cl.name.getD "Sample") config).outcome with
  | panicked msg =>
    refine ⟨hc.1, ?_, ?_, ?_⟩
    · intro err h; cases h
    · intro msg' h; cases h; exact ⟨rfl, hc.2⟩
    · intro h; cases h
  | returned e =>
    cases e with
    | some err =>
      refine ⟨hc.1, ?_, ?_, ?_⟩
      · intro err' h; cases h; exact ⟨rfl, hc.2⟩
      · intro msg h; cases h
      · intro h; cases h
    | none =>
      refine ⟨?_, ?_, ?_, ?_⟩
      · show List.countP Event.isRegisterCall (_ ++ [Event.printf _, Event.run _]) = 1
        rw [List.countP_append, hc.1]
        rfl
      · intro err h; cases h
      · intro msg h; cases h
      · intro _
        refine ⟨rfl, ?_⟩
        show List.getLast? (_ ++ [Event.printf _, Event.run _]) = _
        rw [List.getLast?_append]
        rfl

/-- Claim C7: the listener starts (`router.Run` is reached) only if the config was
read and decoded, the port is not zero, and `registerWithAuctioneer` was called
exactly once and returned nil, the start of the listener being the last action.
Every registration that returns an error ends the process in a fatal exit without
the listener; in particular a transport error, a status other than 201 and a decode
failure do. -/
theorem main_listener_gate (env : Env) (cl : CommandLine) (g : Globals) :
    ((main env cl g).events.any Event.isRun = true →
      env.ReadInConfig = none ∧ cl.port.getD 0 ≠ 0 ∧
      ∃ config, env.Unmarshal = .ok config ∧
        (main env cl g).events.countP Event.isRegisterCall = 1 ∧
        (registrationOf env cl g config).outcome = .returned none ∧
        (main env cl g).events.getLast? = some (.run (":" ++ toString (cl.port.getD 0)))) ∧
    (∀ config err, env.ReadInConfig = none → env.Unmarshal = .ok config →
      cl.port.getD 0 ≠ 0 →
      (registrationOf env cl g config).outcome = .returned (some err) →
      (main env cl g).exit = .fatal ("Can't able to register with auctioneer. Err: " ++ err) ∧
      (main env cl g).events.any Event.isRun = false ∧
      (main env cl g).events.countP Event.isRegisterCall = 1) ∧
    (∀ config req err, env.ReadInConfig = none → env.Unmarshal = .ok config →
      cl.port.getD 0 ≠ 0 → (registrationOf env cl g config).sent = [req] →
      env.Do req = .error err →
      (main env cl g).exit = .fatal ("Can't able to register with auctioneer. Err: " ++ err) ∧
      (main env cl g).events.any Event.isRun = false) ∧
    (∀ config req resp, env.ReadInConfig = none → env.Unmarshal = .ok config →
      cl.port.getD 0 ≠ 0 → (registrationOf env cl g config).sent = [req] →
      env.Do req = .ok resp → resp.StatusCode ≠ 201 →
      (main env cl g).exit =
        .fatal ("Can't able to register with auctioneer. Err: " ++ "Server error!!") ∧
      (main env cl g).events.any Event.isRun = false) ∧
    (∀ config req resp err, env.ReadInConfig = none → env.Unmarshal = .ok config →
      cl.port.getD 0 ≠ 0 → (registrationOf env cl g config).sent = [req] →
      env.Do req = .ok resp → resp.StatusCode = 201 → env.Decode resp.Body = .error err →
      (main env cl g).exit = .fatal ("Can't able to register with auctioneer. Err: " ++ err) ∧
      (main env cl g).events.any Event.isRun = false) := by
  have key : ∀ config err, env.ReadInConfig = none → env.Unmarshal = .ok config →
      cl.port.getD 0 ≠ 0 →
      (registrationOf env cl g config).outcome = .returned (some err) →
      (main env cl g).exit = .fatal ("Can't able to register with auctioneer. Err: " ++ err) ∧
      (main env cl g).events.any Event.isRun = false := by
    intro config err hread hum hport hout
    exact (main_after_registration env cl g config hread hum hport).2.1 err hout
  refine ⟨?_, ?_, ?_, ?_, ?_⟩
  · intro hrun
    cases hread : env.ReadInConfig with
    | some err => simp [main, hread] at hrun
    | none =>
      cases hum : env.Unmarshal with
      | error err => simp [main, hread, hum] at hrun
      | ok config =>
        by_cases hport : cl.port.getD 0 = 0
        · simp [main, hread, hum, hport] at hrun
        · have h := main_after_registration env cl g config hread hum hport
          refine ⟨rfl, hport, config, rfl, h.1, ?_⟩
          cases hout : (registrationOf env cl g config).outcome with
          | panicked msg =>
            rw [(h.2.2.1 msg hout).2] at hrun
            cases hrun
          | returned e =>
            cases e with
            | some err =>
              rw [(h.2.1 err hout).2] at hrun
              cases hrun
            | none => exact ⟨rfl, (h.2.2.2 hout).2⟩
  · intro config err hread hum hport hout
    exact ⟨(key config err hread hum hport hout).1, (key config err hread hum hport hout).2,
      (main_after_registration env cl g config hread hum hport).1⟩
  · intro config req err hread hum hport hsent hdo
    apply key config err hread hum hport
    show (registerWithAuctioneer _ _ _ _).outcome = _
    rw [register_network_error _ _ _ _ req err hsent hdo]
  · intro config req resp hread hum hport hsent hdo hst
    apply key config "Server error!!" hread hum hport
    show (registerWithAuctioneer _ _ _ _).outcome = _
    rw [register_non201 _ _ _ _ req resp hsent hdo hst]
  · intro config req resp err hread hum hport hsent hdo hst hdec
    apply key config err hread hum hport
    show (registerWithAuctioneer _ _ _ _).outcome = _
    rw [register_eq_of_sent _ _ _ _ req hsent]
    simp [hdo, hst, hdec]

/-- Witness for C7: with an auctioneer answering 201 and an identifier the listener
starts after one registration call; with an auctioneer answering 500 the process is
stopped by the fatal exit and the listener does not start. -/
theorem main_listener_gate_witness :
    ((main (sampleEnv (.ok { StatusCode := 201, Body := "ok" })
          (.ok { Data := some { ID := "bidder-42" }, Meta := { Status := 201, Message := "" } }))
        { name := none, port := some 9000, delay := some 600 } zeroGlobals).events.any
          Event.isRun = true ∧
      (main (sampleEnv (.ok { StatusCode := 201, Body := "ok" })
          (.ok { Data := some { ID := "bidder-42" }, Meta := { Status := 201, Message := "" } }))
        { name := none, port := some 9000, delay := some 600 } zeroGlobals).events.countP
          Event.isRegisterCall = 1) ∧
    ((main (sampleEnv (.ok { StatusCode := 500, Body := "" }) (.error "EOF"))
        { name := none, port := some 9000, delay := some 600 } zeroGlobals).exit =
        .fatal "Can't able to register with auctioneer. Err: Server error!!" ∧
      (main (sampleEnv (.ok { StatusCode := 500, Body := "" }) (.error "EOF"))
        { name := none, port := some 9000, delay := some 600 } zeroGlobals).events.any
          Event.isRun = false) := by
  constructor
  · obtain ⟨-, -, config, -, hcount, -, -⟩ :=
      (main_listener_gate
        (sampleEnv (.ok { StatusCode := 201, Body := "ok" })
          (.ok { Data := some { ID := "bidder-42" }, Meta := { Status := 201, Message := "" } }))
        { name := none, port := some 9000, delay := some 600 } zeroGlobals).1 rfl
    exact ⟨rfl, hcount⟩
  · exact (main_listener_gate (sampleEnv (.ok { StatusCode := 500, Body := "" }) (.error "EOF"))
      { name := none, port := some 9000, delay := some 600 } zeroGlobals).2.2.2.1
      sampleConfig _ { StatusCode := 500, Body := "" } rfl rfl (by decide) rfl rfl (by decide)

/-- Delay and port stored by `main` once the config is loaded and the port is not
zero: the registration leaves them as `main` set them. -/
theorem main_globals_delay (env : Env) (cl : CommandLine) (g : Globals) (config : Config)
    (hread : env.ReadInConfig = none) (hum : env.Unmarshal = .ok config)
    (hport : cl.port.getD 0 ≠ 0) :
    (main env cl g).globals.Delay = durationOfDelayFlag (cl.delay.getD 0) ∧
    (main env cl g).globals.Port = cl.port.getD 0 := by
  have h := register_keeps_port_delay env
    { g with Port := cl.port.getD 0, Delay := durationOfDelayFlag (cl.delay.getD 0) }
    (cl.name.getD "Sample") config
  rw [main_eq_of_loaded env cl g config hread hum hport]
  split <;> exact ⟨h.2, h.1⟩

/-- Claim C9, amended: for a `-delay` value `d` (a 64-bit `uint`), the `Delay` stored
by `main` is the non-negative duration of exactly `d` milliseconds, `d * 1,000,000`
nanoseconds, if and only if `d ≤ 9,223,372,036,854`; above that bound the conversion
to `int64` and the multiplication wrap. A value over 500 is accepted like any other:
it adds the log line, and only such a value does, and the startup goes on to the
registration. -/
theorem main_delay_exact_iff (env : Env) (cl : CommandLine) (g : Globals) (config : Config)
    (d : Nat) (hread : env.ReadInConfig = none) (hum : env.Unmarshal = .ok config)
    (hport : cl.port.getD 0 ≠ 0) (hd : cl.delay = some d)
    (huint : d < 18446744073709551616) :
    (((main env cl g).globals.Delay = (d : Int) * 1000000 ∧
        0 ≤ (main env cl g).globals.Delay) ↔ d ≤ 9223372036854) ∧
    (Event.println "delay more than 500ms" ∈ (main env cl g).events ↔ 500 < d) ∧
    (main env cl g).events.countP Event.isRegisterCall = 1 := by
  refine ⟨?_, ?_, (main_after_registration env cl g config hread hum hport).1⟩
  · rw [(main_globals_delay env cl g config hread hum hport).1, hd]
    simp only [Option.getD_some, durationOfDelayFlag, Millisecond]
    constructor
    · intro h
      have hr := wrapInt64_inRange (wrapInt64 (d : Int) * 1000000)
      omega
    · intro h
      have h1 : wrapInt64 (d : Int) = d := wrapInt64_of_inRange _ (by omega) (by omega)
      rw [h1, wrapInt64_of_inRange _ (by omega) (by omega)]
      omega
  · rw [main_eq_of_loaded env cl g config hread hum hport, hd]
    by_cases h500 : 500 < d
    · split <;> simp [h500]
    · split <;> simp [h500]

/-- Witness for C9: a delay of 600 ms, over the logging threshold, is stored as
600,000,000 ns. -/
theorem main_delay_exact_iff_witness :
    (main (sampleEnv (.error "connection refused") (.error ""))
        { name := none, port := some 9000, delay := some 600 } zeroGlobals).globals.Delay =
      ((600 : Nat) : Int) * 1000000 ∧
    0 ≤ (main (sampleEnv (.error "connection refused") (.error ""))
        { name := none, port := some 9000, delay := some 600 } zeroGlobals).globals.Delay :=
  (main_delay_exact_iff (sampleEnv (.error "connection refused") (.error ""))
    { name := none, port := some 9000, delay := some 600 } zeroGlobals sampleConfig 600
    rfl rfl (by decide) rfl (by decide)).1.2 (by decide)

/-- Counterexample to C9 as stated: the flag value `d = 9223372036855` is a valid
`uint`, yet the stored `Delay` is `-9223372036854551616` ns: negative, and not
`d * 1,000,000`. -/
theorem main_delay_wraps :
    (9223372036855 : Nat) < 18446744073709551616 ∧
    (main (sampleEnv (.error "connection refused") (.error ""))
        { name := none, port := some 9000, delay := some 9223372036855 }
        zeroGlobals).globals.Delay = -9223372036854551616 ∧
    (main (sampleEnv (.error "connection refused") (.error ""))
        { name := none, port := some 9000, delay := some 9223372036855 }
        zeroGlobals).globals.Delay ≠ ((9223372036855 : Nat) : Int) * 1000000 ∧
    (main (sampleEnv (.error "connection refused") (.error ""))
        { name := none, port := some 9000, delay := some 9223372036855 }
        zeroGlobals).globals.Delay < 0 := by
  have h : (main (sampleEnv (.error "connection refused") (.error ""))
        { name := none, port := some 9000, delay := some 9223372036855 }
        zeroGlobals).globals.Delay = -9223372036854551616 := by
    rfl
  refine ⟨by decide, h, ?_, ?_⟩
  · rw [h]; decide
  · rw [h]; decide

end AdBidder
